import Mathlib

/-!
Verification of the group-chat turn-selection and conversation-reconciliation
engine of the st-text-messaging plugin.

The Lean definitions below are a shallow embedding of the JavaScript source:

* `Msg`, `ConvStore` and the operations `addMessage`, `removeMessage`,
  `editMessage`, `restoreMessage`, `syncWithMainChat`,
  `reconstructFromMainChat` embed the message store module (message-store.js).
* `Character`, `Group`, `getNextGroupCharacter`, `getMentionedCharacters`,
  `generateGroupResponses`, `generateCharacterResponse`,
  `regenerateFromMessage`, `regenerateForCharacter` embed the turn-selection
  and orchestration logic of the phone-ui module.
* `ChatEntry`, `addMessageToMainChat`, `deleteMessageFromMainChat` embed the
  transcript mirror (context-bridge.js).

Modelling conventions, used throughout:

* The store is a module-level map keyed by conversation; every claim under
  verification is about a single conversation, so the embedding works on one
  `ConvStore` record (the value `messageStore[conversationKey]`), and the
  host-context lookups (`getConversationKey`, `isInGroupChat`,
  `getGroupMembers`, `getCurrentGroup`) become explicit parameters.
* `Option X` models a JS value position whose falsy values (null, undefined,
  0, '') are observed only through truthiness: `none` stands for any falsy
  value.  Identifier-like JS values that can be numbers or strings (character
  ids) are modelled as `String`; each conversation only ever compares such
  values of one provenance with each other, so strict-equality behaviour is
  preserved.
* `Date.now()` and `Math.random()` are host inputs and become parameters
  (`now : Nat`, `rng : Nat → ℚ`, where `rng` is the stream of random draws in
  call order).
* Timestamps (`new Date(...)`) are modelled as their millisecond value.
-/

set_option maxHeartbeats 1000000

namespace Phone

/-- Sender discriminator of a stored phone message; the source stores the
strings 'user' and 'character'. -/
inductive Sender
  | user
  | character
deriving DecidableEq, Repr

/-- A stored phone message (message-store.js `addMessage` / reconstruction):
`id` is the `Date.now()` value assigned at creation, `characterId` tracks the
authoring character for group chats, `timestamp` is the creation `Date` in
milliseconds.  `edited`, `editedAt` and `reconstructed` are absent (hence
falsy) until the corresponding operation sets them. -/
structure Msg where
  id : Nat
  sender : Sender
  characterId : Option String
  text : String
  characterName : String
  avatarUrl : String
  timestamp : Nat
  isFirstInSequence : Bool
  edited : Bool := false
  editedAt : Option Nat := none
  reconstructed : Bool := false
deriving DecidableEq, Repr

/-- Conversation kind: `messageStore[key].type` is 'group' exactly when the
conversation key starts with 'group_'. -/
inductive ConvType
  | individual
  | group
deriving DecidableEq, Repr

/-- One conversation record of the module-level `messageStore` object:
`messages` is the ordered log, `lastSender` is 'user', a characterId, or
'character' (the source keeps null when empty). -/
structure ConvStore where
  type : ConvType
  messages : List Msg
  lastSender : Option String
deriving DecidableEq, Repr

/-- A fresh conversation record (`initializeConversationStore`). -/
def ConvStore.empty (t : ConvType) : ConvStore :=
  { type := t, messages := [], lastSender := none }

/-- Input of `addMessage`: the caller-supplied message object before the
store assigns `id`, `timestamp` and `isFirstInSequence`. -/
structure Draft where
  sender : Sender
  text : String
  characterName : Option String
  avatarUrl : Option String
  characterId : Option String
deriving DecidableEq, Repr

/-- Sender key written into `lastSender` by `addMessage`, and compared against
`store.lastSender` to compute `isFirstInSequence` there: 'user' for a user
message; the characterId when in a group chat and the draft carries a truthy
characterId; 'character' otherwise.  (The two JS code blocks at the top and
bottom of `addMessage` both case on exactly this key.) -/
def addKey (inGroup : Bool) (d : Draft) : String :=
  match d.sender, inGroup, d.characterId with
  | Sender.user, _, _ => "user"
  | Sender.character, true, some cid => cid
  | Sender.character, _, _ => "character"

/-- Sender identity of a stored message as recomputed by `removeMessage`,
`restoreMessage`, `syncWithMainChat` and `reconstructFromMainChat`:
`msg.sender === 'user' ? 'user' : (msg.characterId || 'character')` (the
remove/restore variants spell the same decision as an if-chain). -/
def keyOf (m : Msg) : String :=
  match m.sender, m.characterId with
  | Sender.user, _ => "user"
  | Sender.character, some cid => cid
  | Sender.character, none => "character"

/-- The store module `addMessage(message)`, restricted to the record of the
active conversation (`inGroup` is `isInGroupChat()`, `now` is `Date.now()`).
Returns the updated record together with the full message it pushed. -/
def addMessage (inGroup : Bool) (now : Nat) (d : Draft) (s : ConvStore) :
    ConvStore × Msg :=
  let isFirst : Bool := s.lastSender != some (addKey inGroup d)
  let m : Msg :=
    { id := now
      sender := d.sender
      characterId := d.characterId
      text := d.text
      characterName := d.characterName.getD "Character"
      avatarUrl := d.avatarUrl.getD ""
      timestamp := now
      isFirstInSequence := isFirst }
  ({ s with messages := s.messages ++ [m], lastSender := some (addKey inGroup d) }, m)

/-- Index of the first element satisfying `p` (`Array.prototype.findIndex`,
with `none` for -1). -/
def findIndex {α : Type} (p : α → Bool) : List α → Option Nat
  | [] => none
  | m :: rest => if p m then some 0 else (findIndex p rest).map (· + 1)

/-- Element removal at an index (`splice(i, 1)`). -/
def removeAt {α : Type} (i : Nat) : List α → List α
  | [] => []
  | m :: rest =>
    match i with
    | 0 => rest
    | j + 1 => m :: removeAt j rest

/-- Element insertion at an index (`splice(i, 0, a)`; only used with
`i ≤ length`). -/
def insertAt {α : Type} (i : Nat) (a : α) : List α → List α
  | [] => [a]
  | m :: rest =>
    match i with
    | 0 => a :: m :: rest
    | j + 1 => m :: insertAt j a rest

/-- The store module `removeMessage(messageId)`: splices out the first
message with the given id, updates `lastSender` only when the removed message
was the last one, and returns the removed message for undo. -/
def removeMessage (messageId : Nat) (s : ConvStore) : ConvStore × Option Msg :=
  match findIndex (fun m => m.id == messageId) s.messages with
  | none => (s, none)
  | some index =>
    match s.messages.get? index with
    | none => (s, none)
    | some removed =>
      let rest := removeAt index s.messages
      let last :=
        if rest.isEmpty then none
        else if index = rest.length then
          match rest.getLast? with
          | some lastMsg => some (keyOf lastMsg)
          | none => s.lastSender
        else s.lastSender
      ({ s with messages := rest, lastSender := last }, some removed)

/-- The store module `editMessage(messageId, newText)`: updates the first
message with the given id in place, marking it edited; ordering and sequence
flags are untouched. -/
def editFirst (messageId : Nat) (newText : String) (now : Nat) :
    List Msg → List Msg × Option Msg
  | [] => ([], none)
  | m :: rest =>
    if m.id == messageId then
      let m2 := { m with text := newText, edited := true, editedAt := some now }
      (m2 :: rest, some m2)
    else
      let (r, found) := editFirst messageId newText now rest
      (m :: r, found)

/-- Wrapper returning the updated record and the updated message (or `none`
when the id is absent). -/
def editMessage (messageId : Nat) (newText : String) (now : Nat) (s : ConvStore) :
    ConvStore × Option Msg :=
  let (msgs, found) := editFirst messageId newText now s.messages
  ({ s with messages := msgs }, found)

/-- Positional insert of `restoreMessage` when no index is given: the source
finds the first stored message whose id exceeds the restored id and splices
in front of it, appending at the end when there is none. -/
def insertById (m : Msg) : List Msg → List Msg
  | [] => [m]
  | x :: rest => if m.id < x.id then m :: x :: rest else x :: insertById m rest

/-- The store module `restoreMessage(message, atIndex)`: reinserts a
previously removed message (at the given index when it is within bounds,
otherwise positionally by id) and recomputes `lastSender` from the new tail.
Sequence flags are not recomputed: the message keeps the flag it carried. -/
def restoreMessage (m : Msg) (atIndex : Option Nat) (s : ConvStore) : ConvStore :=
  let msgs :=
    match atIndex with
    | some i => if i ≤ s.messages.length then insertAt i m s.messages else insertById m s.messages
    | none => insertById m s.messages
  let last :=
    match msgs.getLast? with
    | some lastMsg => some (keyOf lastMsg)
    | none => s.lastSender
  { s with messages := msgs, lastSender := last }

/-- The store module `getMessageById(messageId)`. -/
def getMessageById (messageId : Nat) (s : ConvStore) : Option Msg :=
  s.messages.find? (fun m => m.id == messageId)

/-- The store module `clearMessages()` on the active record. -/
def clearMessages (s : ConvStore) : ConvStore :=
  { s with messages := [], lastSender := none }

/-- An entry of the externally-owned main transcript (`context.chat`), with
the `extra` fields this plugin reads and writes: `isPhoneMessage` tags
entries mirrored by the plugin and `phoneMessageId` is the correlation handle
back to the store message id. -/
structure ChatEntry where
  isPhoneMessage : Bool
  phoneMessageId : Option Nat
  is_user : Bool
  name : String
  extraCharacterName : Option String
  mes : String
  send_date : Option Nat
  force_avatar : Option String
deriving DecidableEq, Repr

/-- The set of still-present correlation handles `syncWithMainChat` collects:
ids of transcript entries tagged `isPhoneMessage` with a truthy
`phoneMessageId`. -/
def validIds (chat : List ChatEntry) : List Nat :=
  chat.filterMap (fun e => if e.isPhoneMessage then e.phoneMessageId else none)

/-- The full sequence-flag recomputation loop shared by `syncWithMainChat`
(`prevSenderKey` threading): every message's `isFirstInSequence` becomes
whether its sender key differs from its predecessor's. -/
def recalcFlags (prev : Option String) : List Msg → List Msg
  | [] => []
  | m :: rest =>
    { m with isFirstInSequence := prev != some (keyOf m) } ::
      recalcFlags (some (keyOf m)) rest

/-- The store module `syncWithMainChat()` (the external-deletion prune) on
the active record: drops every stored message whose id no longer appears as a
valid phone-message id in the transcript, and, only when something was
removed, recomputes `lastSender` from the remaining tail and re-derives every
`isFirstInSequence` flag.  Returns the record and the removed count.
`chat = none` models a missing `context.chat`. -/
def syncWithMainChat (chat : Option (List ChatEntry)) (s : ConvStore) :
    ConvStore × Nat :=
  if s.messages.isEmpty then (s, 0)
  else
    match chat with
    | none => (s, 0)
    | some entries =>
      let valid := validIds entries
      let kept := s.messages.filter (fun m => valid.contains m.id)
      let removedCount := s.messages.length - kept.length
      if removedCount > 0 then
        ({ s with
            messages := recalcFlags none kept
            lastSender := (kept.getLast?).map keyOf },
          removedCount)
      else
        ({ s with messages := kept }, removedCount)

/-- A host character object (`context.characters` entry / group member):
`avatar` is the avatar filename, `talkativeness` the 0-100 weight. -/
structure Character where
  name : String
  avatar : Option String
  talkativeness : Option ℚ
deriving DecidableEq, Repr

/-- Member identity used throughout the group logic:
`member.avatar || member.name`. -/
def memberId (c : Character) : String :=
  (c.avatar).getD c.name

/-- The host group object fields the selector reads: muted members,
`activation_strategy` (0 Natural, 1 List, 2 Pooled, 3 Manual; defaulted to 1)
and `allow_self_responses` (defaulted to false). -/
structure Group where
  disabled_members : List String
  activation_strategy : Option Nat
  allow_self_responses : Option Bool
deriving DecidableEq, Repr

/-- Whole-word membership test `new RegExp('\\b' + name + '\\b').test(text)`
for a lowercased name and text: an occurrence of the pattern with no word
character (JS `\w`, i.e. ASCII alphanumeric or underscore) adjacent on either
side.  Faithful for names made of word characters, which is what the group
logic feeds it. -/
def isWordChar (c : Char) : Bool :=
  c.isAlphanum || c == '_'

/-- Helper for `wholeWordIn`: does the pattern occur at offset `i` with word
boundaries on both sides? -/
def wholeWordAt (pat text : List Char) (i : Nat) : Bool :=
  pat.isPrefixOf (text.drop i) &&
    (decide (i = 0) || !(isWordChar ((text.take i).getLastD ' '))) &&
    (decide (i + pat.length = text.length) ||
      !(isWordChar ((text.drop (i + pat.length)).headD ' ')))

/-- Whole-word occurrence of `pat` anywhere in `text`. -/
def wholeWordIn (pat text : List Char) : Bool :=
  (List.range (text.length + 1)).any (wholeWordAt pat text)

/-- JS `toLowerCase()`, applied per character (they agree on the ASCII names
and texts this logic handles). -/
def lowerChars (cs : List Char) : List Char :=
  cs.map Char.toLower

/-- The name-mention test both `getNextGroupCharacter` (Natural order) and
`getMentionedCharacters` perform: case-insensitive whole-word match of the
member name against the message text. -/
def nameMentioned (name text : String) : Bool :=
  wholeWordIn (lowerChars name.toList) (lowerChars text.toList)

/-- The `getCharactersWhoSpokeSinceLastUser()` scan: walks the history
backwards until the first user message, collecting the characterIds of
character messages (a list with `contains` models the JS `Set`). -/
def charactersWhoSpokeSinceLastUser (messages : List Msg) : List String :=
  go messages.reverse
where
  go : List Msg → List String
  | [] => []
  | m :: rest =>
    if m.sender == Sender.user then []
    else
      (match m.characterId with
        | some cid => [cid]
        | none => []) ++ go rest

/-- The characterId of the most recent character message
(`[...messages].reverse().find(m => m.sender === 'character')?.characterId`);
`none` also covers a found message whose characterId is falsy, matching how
every use site tests the value for truthiness. -/
def lastCharacterId (messages : List Msg) : Option String :=
  (messages.reverse.find? (fun m => m.sender == Sender.character)).bind
    (fun m => m.characterId)

/-- The most recent user message
(`[...messages].reverse().find(m => m.sender === 'user')`). -/
def lastUserMessage (messages : List Msg) : Option Msg :=
  messages.reverse.find? (fun m => m.sender == Sender.user)

/-- The `Math.floor(Math.random() * n)` index draw. -/
def floorPick (q : ℚ) (n : Nat) : Nat :=
  (Int.toNat ⌊q * n⌋)

/-- The Natural-order talkativeness filter
(`eligible.filter(m => Math.random() * 100 < (m.talkativeness ?? 50))`):
one random draw per member, in order; returns the passing members and the
next unused random index. -/
def filterTalk (rng : Nat → ℚ) : Nat → List Character → List Character × Nat
  | k, [] => ([], k)
  | k, c :: rest =>
    let (r, k2) := filterTalk rng (k + 1) rest
    (if rng k * 100 < (c.talkativeness).getD 50 then c :: r else r, k2)

/-- The List-order rotation scan (`for i = 1..length`): starting after the
last speaker's slot, return the first member that is allowed (self allowed or
a different member); `fuel` is the remaining iteration count. -/
def listScanFrom (active : List Character) (lastIdx : Nat) (allowSelf : Bool)
    (lastCharId : String) (i : Nat) : Nat → Option Character
  | 0 => none
  | fuel + 1 =>
    match active.get? ((lastIdx + i) % active.length) with
    | none => none
    | some candidate =>
      if allowSelf || (memberId candidate != lastCharId) then some candidate
      else listScanFrom active lastIdx allowSelf lastCharId (i + 1) fuel

/-- The phone-ui `getNextGroupCharacter()`: decides which group member should
respond next, honouring muted members, the activation strategy, self-response
permission and talkativeness.  `members` is `getGroupMembers()`, `group` is
`getCurrentGroup()` (`none` when the group cannot be resolved), `messages`
the conversation history from the store, `rng` the `Math.random()` stream. -/
def getNextGroupCharacter (members : List Character) (group : Option Group)
    (messages : List Msg) (rng : Nat → ℚ) : Option Character :=
  match members with
  | [] => none
  | m0 :: _ =>
    match group with
    | none => some m0
    | some g =>
      let active := members.filter (fun m => !(g.disabled_members.contains (memberId m)))
      match active with
      | [] => some m0
      | _ :: _ =>
        let strategy := (g.activation_strategy).getD 1
        let allowSelf := (g.allow_self_responses).getD false
        let lastCharId := lastCharacterId messages
        let eligible :=
          if !allowSelf && lastCharId.isSome && decide (1 < active.length) then
            let e := active.filter (fun m => some (memberId m) != lastCharId)
            if e.isEmpty then active else e
          else active
        if strategy = 0 then
          -- Natural order: name mentions first, then talkativeness weighting.
          let mentionHit :=
            match lastUserMessage messages with
            | some um => if um.text != "" then eligible.find? (fun mem => nameMentioned mem.name um.text) else none
            | none => none
          match mentionHit with
          | some c => some c
          | none =>
            let (candidates, k) := filterTalk rng 0 eligible
            match candidates with
            | _ :: _ => candidates.get? (floorPick (rng k) candidates.length)
            | [] => eligible.get? (floorPick (rng (k + 1)) eligible.length)
        else if strategy = 1 then
          -- List order: sequential rotation after the last character speaker.
          match lastCharId with
          | some lcid =>
            match active.findIdx? (fun m => memberId m == lcid) with
            | some lastIdx =>
              match listScanFrom active lastIdx allowSelf lcid 1 active.length with
              | some c => some c
              | none => eligible.head?
            | none => eligible.head?
          | none => eligible.head?
        else if strategy = 2 then
          -- Pooled order: everyone speaks once before anyone repeats.
          let spoken := charactersWhoSpokeSinceLastUser messages
          let unspoken := eligible.filter (fun m => !(spoken.contains (memberId m)))
          match unspoken with
          | _ :: _ => unspoken.get? (floorPick (rng 0) unspoken.length)
          | [] => eligible.get? (floorPick (rng 0) eligible.length)
        else if strategy = 3 then
          -- Manual: no automatic selection.
          none
        else
          eligible.head?

/-- The phone-ui `getMentionedCharacters(text)`: the active (non-muted) group
members whose names occur as case-insensitive whole words in the user's text,
in roster order (the source iterates the active member list and pushes
matches). -/
def getMentionedCharacters (members : List Character) (group : Option Group)
    (text : String) : List Character :=
  let disabled := (group.map (fun g => g.disabled_members)).getD []
  let active := members.filter (fun m => !(disabled.contains (memberId m)))
  active.filter (fun m => nameMentioned m.name text)

/-- Outcome of `generateGroupResponses(userText)` at the dispatch level:
either every listed character is generated for in order (`fanOut`, the
multi-mention path, which loops `generateCharacterResponseFor`), a single
mentioned character is generated for, or the configured strategy runs via
`generateCharacterResponse()` (`strategyDraw`). -/
inductive GroupPlan
  | fanOut (cs : List Character)
  | singleFor (c : Character)
  | strategyDraw
deriving DecidableEq, Repr

/-- The phone-ui `generateGroupResponses(userText)` dispatch: the mention
fan-out is consulted only when the configured activation strategy is Natural
(0); every other strategy goes straight to the single-responder path. -/
def generateGroupResponses (members : List Character) (group : Option Group)
    (userText : String) : GroupPlan :=
  match group with
  | none => GroupPlan.strategyDraw
  | some g =>
    let strategy := (g.activation_strategy).getD 1
    if strategy = 0 then
      let mentioned := getMentionedCharacters members (some g) userText
      if 1 < mentioned.length then GroupPlan.fanOut mentioned
      else
        match mentioned with
        | [c] => GroupPlan.singleFor c
        | _ => GroupPlan.strategyDraw
    else
      GroupPlan.strategyDraw

/-- The avatar thumbnail URL built throughout the source; `enc` is the host
`encodeURIComponent`. -/
def thumbnailUrl (enc : String → String) (file : String) : String :=
  "/thumbnail?type=avatar&file=" ++ enc file

/-- Host inputs of one generation run: `rng` is the `Math.random()` stream,
`response` the `generateQuietPrompt` result (`none` for a falsy result),
`stripName` the name-prefix regex chain applied to the response (given the
character name; it is the host regex engine's pattern matching, including
the final trim, and returns its input unchanged when no pattern matches),
`now` the `Date.now()` at commit time, `name1`/`name2` the configured user
and character names, `characters` the host character list, `characterIndex`
the individual-mode `context.characterId`, and `enc` the host
`encodeURIComponent`. -/
structure GenCtx where
  rng : Nat → ℚ
  response : Option String
  stripName : String → String → String
  now : Nat
  name1 : Option String
  name2 : Option String
  characters : List Character
  characterIndex : Option Nat
  enc : String → String

/-- JS `message.characterId` for the individual mode, where the raw
`context.characterId` number is used: 0 is falsy and later normalised to
null, other indices compare (strictly) equal only to themselves, which their
decimal strings also do. -/
def natIdToOpt (i : Nat) : Option String :=
  if i = 0 then none else some (toString i)

/-- Response cleanup step `replace(/^📱\s*/, '')`, applied when the response
starts with the phone emoji. -/
def stripPhoneMark (t : String) : String :=
  if t.startsWith "📱" then ((t.toList.drop 1).dropWhile (fun c => c.isWhitespace)).asString
  else t

/-- The context-bridge `addMessageToMainChat(...)`: appends a tagged entry to
the main transcript and returns its index. -/
def addMessageToMainChat (ctx : GenCtx) (text : String) (isUser : Bool)
    (characterName : Option String) (phoneMessageId : Option Nat)
    (avatarUrl : Option String) (chat : List ChatEntry) : List ChatEntry × Nat :=
  let formattedText := if text.startsWith "📱" then text else "📱 " ++ text
  let senderName := if isUser then (ctx.name1).getD "" else characterName.getD ((ctx.name2).getD "")
  let forceAvatar :=
    match avatarUrl with
    | some a => some a
    | none =>
      if !isUser then
        match characterName with
        | some cn =>
          ((ctx.characters.find? (fun c => c.name == cn)).bind (fun c => c.avatar)).map
            (thumbnailUrl ctx.enc)
        | none => none
      else none
  let entry : ChatEntry :=
    { isPhoneMessage := true
      phoneMessageId := phoneMessageId
      is_user := isUser
      name := senderName
      extraCharacterName := characterName
      mes := formattedText
      send_date := some ctx.now
      force_avatar := forceAvatar }
  (chat ++ [entry], chat.length)

/-- The context-bridge `deleteMessageFromMainChat(phoneMessageId)`: splices
out the first transcript entry whose `extra.phoneMessageId` strictly equals
the given id. -/
def deleteMessageFromMainChat (phoneMessageId : Nat) (chat : List ChatEntry) :
    List ChatEntry × Bool :=
  match findIndex (fun e => e.phoneMessageId == some phoneMessageId) chat with
  | none => (chat, false)
  | some index => (removeAt index chat, true)

/-- The response-handling block shared by `generateCharacterResponse` and
`generateCharacterResponseFor`: clean the generator output, abandon the turn
when it comes back falsy or cleans to empty, otherwise commit it through
`addMessage` and mirror it via `addMessageToMainChat`.  Returns the updated
store and transcript and the appended message, if any. -/
def commitResponse (inGroup : Bool) (ctx : GenCtx) (charName : String)
    (charId : Option String) (avatarUrl : Option String)
    (s : ConvStore) (chat : List ChatEntry) :
    ConvStore × List ChatEntry × Option Msg :=
  match ctx.response with
  | none => (s, chat, none)
  | some response =>
    let cleaned := ctx.stripName charName (stripPhoneMark response)
    if cleaned = "" then (s, chat, none)
    else
      let (s2, m) := addMessage inGroup ctx.now
        { sender := Sender.character
          text := cleaned
          characterName := some charName
          avatarUrl := avatarUrl
          characterId := charId } s
      let chat2 := (addMessageToMainChat ctx cleaned false (some charName) (some m.id)
        avatarUrl chat).1
      (s2, chat2, some m)

/-- The phone-ui `generateCharacterResponse()`: selects the responder (via
`getNextGroupCharacter` in groups, the sole character otherwise) and commits
its generated reply; a group with no selected responder is a no-op returning
without touching the store or the transcript. -/
def generateCharacterResponse (inGroup : Bool) (members : List Character)
    (group : Option Group) (ctx : GenCtx) (s : ConvStore) (chat : List ChatEntry) :
    ConvStore × List ChatEntry × Option Msg :=
  if inGroup then
    match getNextGroupCharacter members group s.messages ctx.rng with
    | none => (s, chat, none)
    | some activeChar =>
      commitResponse true ctx activeChar.name (some (memberId activeChar))
        ((activeChar.avatar).map (thumbnailUrl ctx.enc)) s chat
  else
    let charName := (ctx.name2).getD "Character"
    let charId := (ctx.characterIndex).bind natIdToOpt
    let avatarUrl :=
      ((ctx.characterIndex).bind (fun i => (ctx.characters.get? i).bind (fun c => c.avatar))).map
        (thumbnailUrl ctx.enc)
    commitResponse false ctx charName charId avatarUrl s chat

/-- Outcome of a `regenerateFromMessage` run. `invalidTarget` is the early
return for a missing id or a user-sent target (nothing is changed);
`notFound` is the unreachable second lookup failure; `referenceError` is the
thrown `ReferenceError` when the source reaches its call to the undefined
identifier `generateResponseForCharacter`; `regenerated m` is a completed
run that appended `m` (or nothing, when generation yielded no usable text). -/
inductive RegenOutcome
  | invalidTarget
  | notFound
  | referenceError
  | regenerated (m : Option Msg)
deriving DecidableEq, Repr

/-- JS `parseInt(str, 10)` restricted to the values this code can meet:
leading whitespace is skipped and a leading run of decimal digits is parsed;
`none` models NaN.  A negative parse result would never index
`context.characters` successfully, so it behaves like `none` at the sole use
site. -/
def parseIntLeading (str : String) : Option Nat :=
  let cs := str.toList.dropWhile (fun c => c.isWhitespace)
  let digits := cs.takeWhile (fun c => c.isDigit)
  match digits with
  | [] => none
  | _ => some (digits.foldl (fun acc c => acc * 10 + (c.toNat - 48)) 0)

/-- The phone-ui `regenerateForCharacter(characterId, characterName)`: looks
the character up by numeric id, then by name; when no character is found it
falls back to `generateCharacterResponse()`.  When a character IS found, the
source runs `await generateResponseForCharacter(character)` — an identifier
that is defined nowhere in the module (the defined helper is named
`generateCharacterResponseFor`) — so the call throws a `ReferenceError` and
no reply is generated; the embedding records that as
`RegenOutcome.referenceError` with the store and transcript unchanged from
that point on. -/
def regenerateForCharacter (inGroup : Bool) (members : List Character)
    (group : Option Group) (ctx : GenCtx) (characterId : String)
    (characterName : String) (s : ConvStore) (chat : List ChatEntry) :
    ConvStore × List ChatEntry × RegenOutcome :=
  let byIndex := (parseIntLeading characterId).bind (fun i => ctx.characters.get? i)
  let character :=
    match byIndex with
    | some c => some c
    | none => ctx.characters.find? (fun c => c.name == characterName)
  match character with
  | none =>
    let (s2, chat2, m) := generateCharacterResponse inGroup members group ctx s chat
    (s2, chat2, RegenOutcome.regenerated m)
  | some _ => (s, chat, RegenOutcome.referenceError)

/-- The deletion loop of `regenerateFromMessage`: the collected messages are
deleted in reverse order (newest first), each removed from the store and from
the main transcript. -/
def regenDeleteLoop : List Msg → ConvStore × List ChatEntry → ConvStore × List ChatEntry
  | [], sc => sc
  | m :: rest, (s, chat) =>
    regenDeleteLoop rest ((removeMessage m.id s).1, (deleteMessageFromMainChat m.id chat).1)

/-- The phone-ui `regenerateFromMessage(messageId)`: refuses user-sent
targets, deletes the target and every later message from store and
transcript (newest-tail first), then regenerates — for the target's
character in group chats, via plain `generateCharacterResponse` otherwise.
Modelled with no pending undo deletion outstanding. -/
def regenerateFromMessage (inGroup : Bool) (members : List Character)
    (group : Option Group) (ctx : GenCtx) (messageId : Nat)
    (s : ConvStore) (chat : List ChatEntry) :
    ConvStore × List ChatEntry × RegenOutcome :=
  match getMessageById messageId s with
  | none => (s, chat, RegenOutcome.invalidTarget)
  | some message =>
    if message.sender = Sender.user then (s, chat, RegenOutcome.invalidTarget)
    else
      match findIndex (fun m => m.id == messageId) s.messages with
      | none => (s, chat, RegenOutcome.notFound)
      | some messageIndex =>
        let targetCharacterId := message.characterId
        let targetCharacterName := message.characterName
        let messagesToDelete := s.messages.drop messageIndex
        let (s2, chat2) := regenDeleteLoop messagesToDelete.reverse (s, chat)
        match inGroup, targetCharacterId with
        | true, some cid =>
          regenerateForCharacter true members group ctx cid targetCharacterName s2 chat2
        | _, _ =>
          let (s3, chat3, m) := generateCharacterResponse inGroup members group ctx s2 chat2
          (s3, chat3, RegenOutcome.regenerated m)

/-- Host inputs of `reconstructFromMainChat`: the main transcript
(`none` models a missing `context.chat`), the host character list, the user
display name, `Date.now()` and `encodeURIComponent`. -/
structure ReconCtx where
  inGroup : Bool
  chat : Option (List ChatEntry)
  characters : List Character
  name1 : Option String
  now : Nat
  enc : String → String

/-- Text cleanup of the reconstruction loop: a leading '📱 ' or '📱' prefix
is cut off (the source counts UTF-16 units, this counts characters; the
removed prefix is the same). -/
def stripPhoneMes (t : String) : String :=
  if t.startsWith "📱 " then ((t.toList.drop 2)).asString
  else if t.startsWith "📱" then ((t.toList.drop 1)).asString
  else t

/-- The reconstruction loop body of `reconstructFromMainChat`: walks the main
transcript with its running index (used for the derived-id fallback) and the
last reconstructed sender key, rebuilding a store message from every entry
tagged as a phone message. -/
def reconLoop (rc : ReconCtx) : Nat → Option String → List ChatEntry → List Msg
  | _, _, [] => []
  | index, lastSender, e :: rest =>
    if e.isPhoneMessage then
      let isUser := e.is_user
      let characterName := (e.extraCharacterName).getD e.name
      let avatarUrl :=
        match e.force_avatar with
        | some a => a
        | none =>
          if !isUser then
            match (rc.characters.find? (fun c => c.name == characterName)).bind (fun c => c.avatar) with
            | some av => thumbnailUrl rc.enc av
            | none => ""
          else ""
      let text := stripPhoneMes e.mes
      let characterId :=
        if rc.inGroup && !isUser then
          match rc.characters.findIdx? (fun c => c.name == characterName) with
          | some charIndex => some (toString charIndex)
          | none => none
        else none
      let currentSenderKey := if isUser then "user" else characterId.getD "character"
      let isFirst := lastSender != some currentSenderKey
      let m : Msg :=
        { id := (e.phoneMessageId).getD ((e.send_date).getD (rc.now + index))
          sender := if isUser then Sender.user else Sender.character
          characterId := characterId
          text := text
          characterName := if isUser then (rc.name1).getD "User" else characterName
          avatarUrl := avatarUrl
          timestamp := (e.send_date).getD rc.now
          isFirstInSequence := isFirst
          reconstructed := true }
      m :: reconLoop rc (index + 1) (some currentSenderKey) rest
    else
      reconLoop rc (index + 1) lastSender rest

/-- The store module `reconstructFromMainChat()` on the active record: only
acts when the record holds no messages (the idempotence guard) and the
transcript exists and is non-empty; replays the tagged transcript entries
into the store, then recomputes `lastSender` from the final message.
Returns the record and the reconstructed count. -/
def reconstructFromMainChat (rc : ReconCtx) (s : ConvStore) : ConvStore × Nat :=
  if 0 < s.messages.length then (s, 0)
  else
    match rc.chat with
    | none => (s, 0)
    | some entries =>
      if entries.isEmpty then (s, 0)
      else
        let msgs := reconLoop rc 0 none entries
        let s2 := { s with messages := s.messages ++ msgs }
        match (s2.messages).getLast? with
        | some lastMsg => ({ s2 with lastSender := some (keyOf lastMsg) }, msgs.length)
        | none => (s2, msgs.length)

/-- One store mutation for the ordering claim: append, remove, restore (by
id position, as the undo path does when no index survives) or edit, with the
host inputs (`Date.now()` value, restored message object) recorded. -/
inductive StoreOp
  | add (inGroup : Bool) (now : Nat) (d : Draft)
  | remove (messageId : Nat)
  | restore (m : Msg)
  | edit (messageId : Nat) (newText : String) (now : Nat)
deriving Repr

/-- Applies one store operation to a conversation record. -/
def applyOp (s : ConvStore) : StoreOp → ConvStore
  | StoreOp.add g now d => (addMessage g now d s).1
  | StoreOp.remove mid => (removeMessage mid s).1
  | StoreOp.restore m => restoreMessage m none s
  | StoreOp.edit mid t now => (editMessage mid t now s).1

/-- Applies a sequence of store operations in order. -/
def applyOps (s : ConvStore) : List StoreOp → ConvStore
  | [] => s
  | op :: rest => applyOps (applyOp s op) rest

/-- Side conditions under which the ordering invariant survives an
operation: an append's `Date.now()` value must exceed every stored id (the
clock moved on since the newest message), and a restore must reinsert an id
that is not currently present. -/
def goodOp (s : ConvStore) : StoreOp → Prop
  | StoreOp.add _ now _ => ∀ m ∈ s.messages, m.id < now
  | StoreOp.remove _ => True
  | StoreOp.restore m => m.id ∉ s.messages.map (fun x => x.id)
  | StoreOp.edit _ _ _ => True

instance goodOpDecidable (s : ConvStore) (op : StoreOp) : Decidable (goodOp s op) := by
  cases op <;> (unfold goodOp; infer_instance)

/-- Chained side conditions along a sequence of operations. -/
def goodOps (s : ConvStore) : List StoreOp → Prop
  | [] => True
  | op :: rest => goodOp s op ∧ goodOps (applyOp s op) rest

instance goodOpsDecidable : (s : ConvStore) → (ops : List StoreOp) → Decidable (goodOps s ops)
  | _, [] => Decidable.isTrue trivial
  | s, op :: rest =>
    haveI : Decidable (goodOps (applyOp s op) rest) := goodOpsDecidable (applyOp s op) rest
    inferInstanceAs (Decidable (goodOp s op ∧ goodOps (applyOp s op) rest))

/-- Concrete data for the prune scenario: a user message and two character
messages from the same character. -/
def pruneDemoA : Msg := ⟨1, Sender.user, none, "a", "User", "", 1, true, false, none, false⟩

def pruneDemoB : Msg :=
  ⟨2, Sender.character, some "ann.png", "b", "Ann", "", 2, true, false, none, false⟩

def pruneDemoC : Msg :=
  ⟨3, Sender.character, some "ann.png", "c", "Ann", "", 3, true, false, none, false⟩

/-- A transcript still holding the mirror entries of A and C only. -/
def pruneDemoChat : List ChatEntry :=
  [⟨true, some 1, true, "User", none, "📱 a", some 1, none⟩,
   ⟨true, some 3, false, "Ann", some "Ann", "📱 c", some 3, none⟩]

/-- Concrete store for the remove/restore round-trip: an individual
conversation whose character message carries the raw numeric
`context.characterId` (here 5), as the orchestrator's individual mode
supplies it. -/
def rtDemoStore : ConvStore :=
  (addMessage false 100 ⟨Sender.character, "hi", some "Ann", none, some "5"⟩
    (ConvStore.empty ConvType.individual)).1

/-- The message `rtDemoStore` holds. -/
def rtDemoMsg : Msg :=
  ⟨100, Sender.character, some "5", "hi", "Ann", "", 100, true, false, none, false⟩

/-- A group-conversation store whose `lastSender` agrees with the tail key
(round-trip witness data). -/
def rtGoodStore : ConvStore :=
  (addMessage true 100 ⟨Sender.character, "hi", some "Ann", none, some "ann.png"⟩
    (ConvStore.empty ConvType.group)).1

/-- The message `rtGoodStore` holds. -/
def rtGoodMsg : Msg :=
  ⟨100, Sender.character, some "ann.png", "hi", "Ann", "", 100, true, false, none, false⟩

/-- Roster for the mention fan-out scenario. -/
def mentionAlice : Character := ⟨"Alice", none, none⟩

def mentionBob : Character := ⟨"Bob", none, none⟩

def mentionCara : Character := ⟨"Cara", none, none⟩

def mentionMembers : List Character := [mentionAlice, mentionBob, mentionCara]

/-- A group configured with the List strategy. -/
def mentionListGroup : Group := ⟨[], some 1, some false⟩

/-- A group configured with the Natural strategy. -/
def mentionNaturalGroup : Group := ⟨[], some 0, some false⟩

/-- Roster X, Y, Z for the List-strategy round-robin scenario. -/
def rrX : Character := ⟨"X", some "x.png", none⟩

def rrY : Character := ⟨"Y", some "y.png", none⟩

def rrZ : Character := ⟨"Z", some "z.png", none⟩

/-- The round-robin group: List strategy, self-responses disallowed, nobody
muted. -/
def rrGroup : Group := ⟨[], some 1, some false⟩

/-- A one-member roster whose sole member is muted. -/
def disAnn : Character := ⟨"Ann", some "ann.png", none⟩

/-- A group muting `disAnn`. -/
def disGroup : Group := ⟨["ann.png"], some 1, some false⟩

/-- Generation context used by concrete orchestration scenarios: determinate
random stream, a successful generator response, pass-through name-stripping
and URI encoding. -/
def regenCtx : GenCtx :=
  ⟨fun _ => 0, some "ok", fun _ t => t, 500, some "User", some "Ann",
    [⟨"Ann", some "ann.png", some 50⟩], none, fun t => t⟩

/-- Five-message group conversation for the regenerate-from scenario:
user, Ann, user, Ann, Ann (ids 1..5, Ann's characterId is the character
index string "0"). -/
def regenMsgs : List Msg :=
  [⟨1, Sender.user, none, "a", "User", "", 1, true, false, none, false⟩,
   ⟨2, Sender.character, some "0", "b", "Ann", "", 2, true, false, none, false⟩,
   ⟨3, Sender.user, none, "c", "User", "", 3, true, false, none, false⟩,
   ⟨4, Sender.character, some "0", "d", "Ann", "", 4, true, false, none, false⟩,
   ⟨5, Sender.character, some "0", "e", "Ann", "", 5, false, false, none, false⟩]

def regenStore : ConvStore := ⟨ConvType.group, regenMsgs, some "0"⟩

/-- The mirrored transcript of `regenStore`. -/
def regenChat : List ChatEntry :=
  [⟨true, some 1, true, "User", none, "📱 a", some 1, none⟩,
   ⟨true, some 2, false, "Ann", some "Ann", "📱 b", some 2, none⟩,
   ⟨true, some 3, true, "User", none, "📱 c", some 3, none⟩,
   ⟨true, some 4, false, "Ann", some "Ann", "📱 d", some 4, none⟩,
   ⟨true, some 5, false, "Ann", some "Ann", "📱 e", some 5, none⟩]

/-- The group of the regenerate-from scenario. -/
def regenGroup : Group := ⟨[], some 1, some false⟩

/-- Sequence-flag invariant relative to the sender key of the predecessor:
every message's `isFirstInSequence` equals whether its key differs from the
previous one (`none` before the first message, so the first flag must be
true). -/
def flagsOkFrom (prev : Option String) : List Msg → Bool
  | [] => true
  | m :: rest =>
    (m.isFirstInSequence == (prev != some (keyOf m))) && flagsOkFrom (some (keyOf m)) rest

/-- The sequence-flag invariant of a conversation record. -/
def flagsOk (s : ConvStore) : Bool :=
  flagsOkFrom none s.messages

/-- Consistency of the derived `lastSender` field: it equals the sender key
of the tail message (and is null exactly when the log is empty). -/
def lastOk (s : ConvStore) : Prop :=
  s.lastSender = (s.messages.getLast?).map keyOf

instance lastOkDecidable (s : ConvStore) : Decidable (lastOk s) :=
  inferInstanceAs (Decidable (s.lastSender = (s.messages.getLast?).map keyOf))

/-- Sender key in force after traversing `l`, starting from `p`. -/
def endKey (p : Option String) (l : List Msg) : Option String :=
  match l.getLast? with
  | some m => some (keyOf m)
  | none => p

theorem endKey_none (l : List Msg) : endKey none l = (l.getLast?).map keyOf := by
  cases h : l.getLast? <;> simp [endKey, h]

theorem endKey_cons (p : Option String) (x : Msg) (rest : List Msg) :
    endKey p (x :: rest) = endKey (some (keyOf x)) rest := by
  cases rest with
  | nil => simp [endKey]
  | cons y t =>
    simp only [endKey, List.getLast?_cons_cons]
    cases h : (y :: t).getLast? with
    | some m => rfl
    | none => exact absurd h (by simp)

theorem flagsOkFrom_append (m : Msg) :
    ∀ (l : List Msg) (p : Option String), flagsOkFrom p l = true →
      m.isFirstInSequence = (endKey p l != some (keyOf m)) →
      flagsOkFrom p (l ++ [m]) = true
  | [], p, _, h2 => by
    simp [flagsOkFrom, endKey] at h2 ⊢
    exact h2
  | x :: rest, p, h1, h2 => by
    rw [endKey_cons] at h2
    simp only [flagsOkFrom, Bool.and_eq_true] at h1
    simp only [List.cons_append, flagsOkFrom, Bool.and_eq_true]
    exact ⟨h1.1, flagsOkFrom_append m rest (some (keyOf x)) h1.2 h2⟩

theorem keyOf_setFlag (m : Msg) (b : Bool) :
    keyOf { m with isFirstInSequence := b } = keyOf m := rfl

theorem flagsOkFrom_recalc : ∀ (l : List Msg) (p : Option String),
    flagsOkFrom p (recalcFlags p l) = true
  | [], _ => rfl
  | m :: rest, p => by
    simp only [recalcFlags, flagsOkFrom, keyOf_setFlag, Bool.and_eq_true]
    exact ⟨by simp, flagsOkFrom_recalc rest (some (keyOf m))⟩

theorem recalc_map_keyOf : ∀ (l : List Msg) (p : Option String),
    (recalcFlags p l).map keyOf = l.map keyOf
  | [], _ => rfl
  | m :: rest, p => by
    simp only [recalcFlags, List.map_cons, keyOf_setFlag]
    rw [recalc_map_keyOf rest (some (keyOf m))]

theorem recalc_map_id : ∀ (l : List Msg) (p : Option String),
    (recalcFlags p l).map (fun m => m.id) = l.map (fun m => m.id)
  | [], _ => rfl
  | m :: rest, p => by
    simp only [recalcFlags, List.map_cons]
    rw [recalc_map_id rest (some (keyOf m))]

theorem recalc_getLast?_keyOf (l : List Msg) (p : Option String) :
    ((recalcFlags p l).getLast?).map keyOf = (l.getLast?).map keyOf := by
  rw [← List.getLast?_map, ← List.getLast?_map, recalc_map_keyOf]

theorem filter_length_eq {α : Type} (p : α → Bool) :
    ∀ l : List α, (l.filter p).length = l.length → l.filter p = l
  | [], _ => rfl
  | x :: rest, h => by
    cases hx : p x with
    | true =>
      simp only [List.filter_cons, hx, if_true, List.length_cons] at h ⊢
      rw [filter_length_eq p rest (by omega)]
    | false =>
      exfalso
      simp only [List.filter_cons, hx, List.length_cons] at h
      have := List.length_filter_le p rest
      simp only [Bool.false_eq_true, if_false] at h
      omega

theorem sync_empty (chat : Option (List ChatEntry)) (s : ConvStore)
    (h : s.messages = []) : syncWithMainChat chat s = (s, 0) := by
  unfold syncWithMainChat
  rw [if_pos (List.isEmpty_iff.mpr h)]

theorem sync_none (s : ConvStore) : syncWithMainChat none s = (s, 0) := by
  unfold syncWithMainChat
  split <;> rfl

theorem sync_spec (entries : List ChatEntry) (s : ConvStore) (h0 : s.messages ≠ []) :
    syncWithMainChat (some entries) s =
      if (s.messages.filter (fun m => (validIds entries).contains m.id)).length <
          s.messages.length then
        ({ s with
            messages := recalcFlags none
              (s.messages.filter (fun m => (validIds entries).contains m.id))
            lastSender := ((s.messages.filter
              (fun m => (validIds entries).contains m.id)).getLast?).map keyOf },
          s.messages.length -
            (s.messages.filter (fun m => (validIds entries).contains m.id)).length)
      else
        ({ s with
            messages := s.messages.filter (fun m => (validIds entries).contains m.id) }, 0) := by
  unfold syncWithMainChat
  rw [if_neg (fun h => h0 (List.isEmpty_iff.mp h))]
  have h1 : (0 < s.messages.length -
      (s.messages.filter (fun m => (validIds entries).contains m.id)).length) ↔
      ((s.messages.filter (fun m => (validIds entries).contains m.id)).length <
        s.messages.length) := by
    have := List.length_filter_le (fun m => (validIds entries).contains m.id) s.messages
    omega
  by_cases hlt : (s.messages.filter (fun m => (validIds entries).contains m.id)).length <
      s.messages.length
  · rw [if_pos hlt]
    simp only [gt_iff_lt]
    rw [if_pos (h1.mpr hlt)]
  · rw [if_neg hlt]
    simp only [gt_iff_lt]
    rw [if_neg (fun hh => hlt (h1.mp hh))]
    have hle := List.length_filter_le (fun m => (validIds entries).contains m.id) s.messages
    have : s.messages.length -
        (s.messages.filter (fun m => (validIds entries).contains m.id)).length = 0 := by omega
    rw [this]

theorem sync_result_valid (entries : List ChatEntry) (s : ConvStore) :
    ∀ m ∈ (syncWithMainChat (some entries) s).1.messages,
      (validIds entries).contains m.id = true := by
  intro m hm
  by_cases h0 : s.messages = []
  · rw [sync_empty _ _ h0] at hm
    rw [h0] at hm
    simp at hm
  · rw [sync_spec entries s h0] at hm
    split at hm
    · -- something removed: messages are the recalculated kept list
      simp only at hm
      have hid : m.id ∈ (s.messages.filter
          (fun m => (validIds entries).contains m.id)).map (fun m => m.id) := by
        rw [← recalc_map_id _ none]
        exact List.mem_map_of_mem _ hm
      rcases List.mem_map.mp hid with ⟨x, hx, hxid⟩
      have := (List.mem_filter.mp hx).2
      rw [← hxid]
      exact this
    · -- nothing removed: messages are the filtered list itself
      simp only at hm
      exact (List.mem_filter.mp hm).2

/-- Claim C10: the external-deletion prune is idempotent: a second run on the
pruned store removes nothing, returns 0 and leaves the record exactly as the
first run left it. -/
theorem sync_with_main_chat_idempotent (chat : Option (List ChatEntry)) (s : ConvStore) :
    syncWithMainChat chat (syncWithMainChat chat s).1 = ((syncWithMainChat chat s).1, 0) := by
  cases chat with
  | none => rw [sync_none, sync_none]
  | some entries =>
    by_cases h1 : (syncWithMainChat (some entries) s).1.messages = []
    · exact sync_empty _ _ h1
    · have hall := sync_result_valid entries s
      have hfilter : (syncWithMainChat (some entries) s).1.messages.filter
          (fun m => (validIds entries).contains m.id) =
          (syncWithMainChat (some entries) s).1.messages :=
        List.filter_eq_self.mpr hall
      rw [sync_spec entries _ h1, hfilter]
      rw [if_neg (lt_irrefl _)]

/-- Claim C7: reconstruction from the main transcript on a conversation whose
store already holds at least one message is a no-op: it returns 0 and leaves
the record untouched, whatever the transcript holds. -/
theorem reconstruct_noop_on_populated (rc : ReconCtx) (s : ConvStore)
    (h : s.messages ≠ []) : reconstructFromMainChat rc s = (s, 0) := by
  unfold reconstructFromMainChat
  have hlen : 0 < s.messages.length := List.length_pos.mpr h
  simp [hlen]

theorem reconstruct_noop_on_populated_witness :
    (let s : ConvStore :=
      ⟨ConvType.individual, [⟨5, Sender.user, none, "hi", "User", "", 5, true, false, none, false⟩], some "user"⟩
     let rc : ReconCtx :=
      ⟨false, some [⟨true, some 9, false, "Ann", none, "📱 yo", some 9, none⟩], [], none, 100, fun t => t⟩
     s.messages ≠ [] ∧ reconstructFromMainChat rc s = (s, 0)) := by
  refine ⟨by decide, reconstruct_noop_on_populated _ _ (by decide)⟩

/-- Claim C5: pruning a three-message store `[A, B, C]` against a transcript
whose surviving correlation handles are exactly those of A and C removes
exactly B, returns 1, and leaves the flags fully recomputed over `[A, C]`
with `lastSender` re-derived from C. -/
theorem prune_removes_middle (ty : ConvType) (ls : Option String) (A B C : Msg)
    (entries : List ChatEntry)
    (hA : (validIds entries).contains A.id = true)
    (hB : (validIds entries).contains B.id = false)
    (hC : (validIds entries).contains C.id = true) :
    syncWithMainChat (some entries) ⟨ty, [A, B, C], ls⟩ =
      (⟨ty, [{ A with isFirstInSequence := true },
             { C with isFirstInSequence := (keyOf A != keyOf C) }],
        some (keyOf C)⟩, 1) := by
  have hA2 : A.id ∈ validIds entries := by simpa using hA
  have hB2 : B.id ∉ validIds entries := by simpa using hB
  have hC2 : C.id ∈ validIds entries := by simpa using hC
  have hkept : [A, B, C].filter (fun m => (validIds entries).contains m.id) = [A, C] := by
    simp [List.filter_cons, hA2, hB2, hC2]
  rw [sync_spec entries ⟨ty, [A, B, C], ls⟩ (by simp)]
  simp only [hkept]
  rw [if_pos (by simp)]
  simp [recalcFlags, bne]

theorem addKey_eq_keyOf (g : Bool) (d : Draft) (now : Nat) (s : ConvStore)
    (h : g = true ∨ d.sender = Sender.user ∨ d.characterId = none) :
    keyOf (addMessage g now d s).2 = addKey g d := by
  cases hs : d.sender with
  | user => simp [addMessage, keyOf, addKey, hs]
  | character =>
    cases hcid : d.characterId with
    | none => cases g <;> simp [addMessage, keyOf, addKey, hs, hcid]
    | some cid =>
      cases hg : g with
      | true => simp [addMessage, keyOf, addKey, hs, hcid]
      | false =>
        rcases h with h | h | h
        · exact absurd h (by rw [hg]; simp)
        · exact absurd h (by rw [hs]; simp)
        · exact absurd h (by rw [hcid]; simp)

/-- Claim C1 (amended): the sequence-flag invariant (first flag true, later
flags true exactly on identity change) together with `lastSender`
consistency is preserved by append — provided the draft's characterId is
consistent with the conversation kind (group chat, or user-sent, or no
characterId) — and by the external-deletion prune.  (Remove and restore do
not recompute flags and can break the invariant; see the counterexample.) -/
theorem flags_invariant_after_append_and_prune (g : Bool) (s : ConvStore) (d : Draft)
    (now : Nat) (chat : Option (List ChatEntry))
    (hf : flagsOk s = true) (hl : lastOk s) :
    ((g = true ∨ d.sender = Sender.user ∨ d.characterId = none) →
      flagsOk (addMessage g now d s).1 = true ∧ lastOk (addMessage g now d s).1)
    ∧ (flagsOk (syncWithMainChat chat s).1 = true ∧ lastOk (syncWithMainChat chat s).1) := by
  constructor
  · intro hkind
    constructor
    · show flagsOkFrom none (s.messages ++ [(addMessage g now d s).2]) = true
      apply flagsOkFrom_append _ _ _ hf
      show (s.lastSender != some (addKey g d)) =
        (endKey none s.messages != some (keyOf (addMessage g now d s).2))
      rw [hl, endKey_none, addKey_eq_keyOf g d now s hkind]
    · show some (addKey g d) = ((s.messages ++ [(addMessage g now d s).2]).getLast?).map keyOf
      rw [List.getLast?_concat]
      simp [addKey_eq_keyOf g d now s hkind]
  · cases chat with
    | none =>
      rw [sync_none]
      exact ⟨hf, hl⟩
    | some entries =>
      by_cases h0 : s.messages = []
      · rw [sync_empty _ _ h0]
        exact ⟨hf, hl⟩
      · rw [sync_spec entries s h0]
        split
        · constructor
          · exact flagsOkFrom_recalc _ none
          · show (((s.messages.filter
                (fun m => (validIds entries).contains m.id)).getLast?).map keyOf) = _
            rw [recalc_getLast?_keyOf]
        · rename_i hge
          have hle := List.length_filter_le (fun m => (validIds entries).contains m.id) s.messages
          have heq : (s.messages.filter (fun m => (validIds entries).contains m.id)).length =
              s.messages.length := by omega
          have := filter_length_eq (fun m => (validIds entries).contains m.id) s.messages heq
          rw [this]
          exact ⟨hf, hl⟩

theorem flags_invariant_after_append_and_prune_witness :
    (let s0 : ConvStore := ⟨ConvType.group,
      [⟨1, Sender.user, none, "hi", "User", "", 1, true, false, none, false⟩], some "user"⟩
     let d0 : Draft := ⟨Sender.character, "yo", some "Ann", none, some "ann.png"⟩
     flagsOk s0 = true ∧ lastOk s0 ∧
      (flagsOk (addMessage true 2 d0 s0).1 = true ∧ lastOk (addMessage true 2 d0 s0).1) ∧
      (flagsOk (syncWithMainChat (some []) s0).1 = true ∧
        lastOk (syncWithMainChat (some []) s0).1)) := by
  refine ⟨by decide, by decide, ?_, ?_⟩
  · exact (flags_invariant_after_append_and_prune true _ _ 2 (some []) (by decide)
      (by decide)).1 (Or.inl rfl)
  · exact (flags_invariant_after_append_and_prune true _
      ⟨Sender.character, "yo", some "Ann", none, some "ann.png"⟩ 2 (some []) (by decide)
      (by decide)).2

theorem flags_invariant_breaks_after_remove_and_restore :
    -- Removing the first of two consecutive same-character messages leaves the
    -- survivor flagged as not-first even though it now heads the list...
    (flagsOk ((addMessage true 2 ⟨Sender.character, "b", some "Ann", none, some "ann.png"⟩
        (addMessage true 1 ⟨Sender.character, "a", some "Ann", none, some "ann.png"⟩
          (ConvStore.empty ConvType.group)).1).1) = true ∧
     flagsOk ((removeMessage 1
        (addMessage true 2 ⟨Sender.character, "b", some "Ann", none, some "ann.png"⟩
          (addMessage true 1 ⟨Sender.character, "a", some "Ann", none, some "ann.png"⟩
            (ConvStore.empty ConvType.group)).1).1).1) = false) ∧
    -- ...and restore reinserts a message with its stale flag unrecomputed.
    (flagsOk (⟨ConvType.group,
        [⟨3, Sender.character, some "bob.png", "hi", "Bob", "", 3, true, false, none, false⟩],
        some "bob.png"⟩ : ConvStore) = true ∧
     flagsOk (restoreMessage
        ⟨2, Sender.character, some "ann.png", "b", "Ann", "", 2, false, false, none, false⟩
        none
        ⟨ConvType.group,
          [⟨3, Sender.character, some "bob.png", "hi", "Bob", "", 3, true, false, none, false⟩],
          some "bob.png"⟩) = false) := by
  decide

theorem prune_removes_middle_witness :
    (validIds pruneDemoChat).contains pruneDemoA.id = true ∧
    (validIds pruneDemoChat).contains pruneDemoB.id = false ∧
    (validIds pruneDemoChat).contains pruneDemoC.id = true ∧
    syncWithMainChat (some pruneDemoChat)
        ⟨ConvType.group, [pruneDemoA, pruneDemoB, pruneDemoC], some "ann.png"⟩ =
      (⟨ConvType.group, [{ pruneDemoA with isFirstInSequence := true },
          { pruneDemoC with isFirstInSequence := (keyOf pruneDemoA != keyOf pruneDemoC) }],
        some (keyOf pruneDemoC)⟩, 1) :=
  ⟨by decide, by decide, by decide,
    prune_removes_middle ConvType.group (some "ann.png") pruneDemoA pruneDemoB pruneDemoC
      pruneDemoChat (by decide) (by decide) (by decide)⟩

theorem removeAt_sublist {α : Type} : ∀ (i : Nat) (l : List α), (removeAt i l).Sublist l
  | _, [] => by simp [removeAt]
  | 0, m :: rest => by
    simp only [removeAt]
    exact (List.Sublist.refl rest).cons m
  | i + 1, m :: rest => by
    simp only [removeAt]
    exact (removeAt_sublist i rest).cons₂ m

theorem mem_insertById (m : Msg) : ∀ (l : List Msg) (x : Msg),
    x ∈ insertById m l → x = m ∨ x ∈ l
  | [], x, h => by simpa [insertById] using h
  | y :: rest, x, h => by
    by_cases hlt : m.id < y.id
    · simp only [insertById, if_pos hlt] at h
      exact List.mem_cons.mp h
    · simp only [insertById, if_neg hlt] at h
      rcases List.mem_cons.mp h with h | h
      · exact Or.inr (by simp [h])
      · rcases mem_insertById m rest x h with h2 | h2
        · exact Or.inl h2
        · exact Or.inr (by simp [h2])

theorem insertById_sorted (m : Msg) : ∀ l : List Msg,
    (l.map (fun x => x.id)).Pairwise (· < ·) →
    m.id ∉ l.map (fun x => x.id) →
    ((insertById m l).map (fun x => x.id)).Pairwise (· < ·)
  | [], _, _ => by simp [insertById]
  | y :: rest, hp, hn => by
    simp only [List.map_cons, List.pairwise_cons] at hp
    simp only [List.map_cons, List.mem_cons, not_or] at hn
    by_cases hlt : m.id < y.id
    · simp only [insertById, if_pos hlt, List.map_cons, List.pairwise_cons]
      refine ⟨?_, ?_⟩
      · intro b hb
        rcases List.mem_cons.mp hb with rfl | hb
        · exact hlt
        · exact lt_trans hlt (hp.1 b hb)
      · exact hp
    · have hgt : y.id < m.id := by
        rcases Nat.lt_or_ge m.id y.id with h | h
        · exact absurd h hlt
        · rcases Nat.eq_or_lt_of_le h with h | h
          · exact absurd h.symm hn.1
          · exact h
      simp only [insertById, if_neg hlt, List.map_cons, List.pairwise_cons]
      refine ⟨?_, insertById_sorted m rest hp.2 hn.2⟩
      intro b hb
      rcases List.mem_map.mp hb with ⟨x, hx, rfl⟩
      rcases mem_insertById m rest x hx with rfl | hx2
      · exact hgt
      · exact hp.1 x.id (List.mem_map_of_mem _ hx2)

theorem editFirst_map_id (mid : Nat) (t : String) (now : Nat) :
    ∀ l : List Msg, ((editFirst mid t now l).1).map (fun m => m.id) = l.map (fun m => m.id)
  | [] => rfl
  | m :: rest => by
    by_cases h : m.id == mid
    · simp [editFirst, h]
    · simp [editFirst, h, editFirst_map_id mid t now rest]

theorem ids_pairwise_step (s : ConvStore) (op : StoreOp)
    (hs : (s.messages.map (fun m => m.id)).Pairwise (· < ·))
    (hop : goodOp s op) :
    (((applyOp s op).messages).map (fun m => m.id)).Pairwise (· < ·) := by
  cases op with
  | add g now d =>
    show ((s.messages ++ [(addMessage g now d s).2]).map (fun m => m.id)).Pairwise (· < ·)
    rw [List.map_append, List.pairwise_append]
    refine ⟨hs, by simp, ?_⟩
    intro a ha b hb
    simp only [List.map_cons, List.map_nil, List.mem_singleton] at hb
    rcases List.mem_map.mp ha with ⟨x, hx, rfl⟩
    rw [hb]
    exact hop x hx
  | remove mid =>
    show (((removeMessage mid s).1.messages).map (fun m => m.id)).Pairwise (· < ·)
    unfold removeMessage
    split
    · exact hs
    · split
      · exact hs
      · exact List.Pairwise.sublist (List.Sublist.map _ (removeAt_sublist _ _)) hs
  | restore m =>
    show ((restoreMessage m none s).messages.map (fun m => m.id)).Pairwise (· < ·)
    unfold restoreMessage
    exact insertById_sorted m s.messages hs hop
  | edit mid t now =>
    show (((editMessage mid t now s).1.messages).map (fun m => m.id)).Pairwise (· < ·)
    unfold editMessage
    simp only
    rw [editFirst_map_id]
    exact hs

/-- Claim C2 (amended): starting from a store in strictly increasing id
order, any sequence of append/remove/restore/edit operations preserves
strictly increasing ids (hence no duplicates) — provided each append's
`Date.now()` value strictly exceeds every stored id and each restore
reinserts an id not currently present and takes the id-sorted position.
(Two appends inside the same millisecond produce a duplicate id; see the
counterexample.) -/
theorem ids_strictly_increasing_after_ops (s : ConvStore) (ops : List StoreOp)
    (hs : (s.messages.map (fun m => m.id)).Pairwise (· < ·))
    (hg : goodOps s ops) :
    (((applyOps s ops).messages).map (fun m => m.id)).Pairwise (· < ·) ∧
    (((applyOps s ops).messages).map (fun m => m.id)).Nodup := by
  induction ops generalizing s with
  | nil => exact ⟨hs, hs.imp (fun h => Nat.ne_of_lt h)⟩
  | cons op rest ih => exact ih (applyOp s op) (ids_pairwise_step s op hs hg.1) hg.2

theorem ids_strictly_increasing_after_ops_witness :
    ((goodOps (ConvStore.empty ConvType.group)
        [StoreOp.add true 100 ⟨Sender.user, "a", some "User", none, none⟩,
         StoreOp.add true 200 ⟨Sender.character, "b", some "Ann", none, some "ann.png"⟩,
         StoreOp.remove 100,
         StoreOp.restore ⟨100, Sender.user, none, "a", "User", "", 100, true, false, none, false⟩,
         StoreOp.edit 200 "edited" 300]) ∧
     ((((applyOps (ConvStore.empty ConvType.group)
        [StoreOp.add true 100 ⟨Sender.user, "a", some "User", none, none⟩,
         StoreOp.add true 200 ⟨Sender.character, "b", some "Ann", none, some "ann.png"⟩,
         StoreOp.remove 100,
         StoreOp.restore ⟨100, Sender.user, none, "a", "User", "", 100, true, false, none, false⟩,
         StoreOp.edit 200 "edited" 300]).messages).map (fun m => m.id)).Pairwise (· < ·) ∧
      (((applyOps (ConvStore.empty ConvType.group)
        [StoreOp.add true 100 ⟨Sender.user, "a", some "User", none, none⟩,
         StoreOp.add true 200 ⟨Sender.character, "b", some "Ann", none, some "ann.png"⟩,
         StoreOp.remove 100,
         StoreOp.restore ⟨100, Sender.user, none, "a", "User", "", 100, true, false, none, false⟩,
         StoreOp.edit 200 "edited" 300]).messages).map (fun m => m.id)).Nodup)) :=
  ⟨by decide, ids_strictly_increasing_after_ops _ _ (by decide) (by decide)⟩

theorem duplicate_ids_same_millisecond :
    ((applyOps (ConvStore.empty ConvType.individual)
        [StoreOp.add false 100 ⟨Sender.user, "a", some "User", none, none⟩,
         StoreOp.add false 100 ⟨Sender.character, "b", some "Ann", none, none⟩]).messages.map
        (fun m => m.id)) = [100, 100] ∧
    ¬ ((((applyOps (ConvStore.empty ConvType.individual)
        [StoreOp.add false 100 ⟨Sender.user, "a", some "User", none, none⟩,
         StoreOp.add false 100 ⟨Sender.character, "b", some "Ann", none, none⟩]).messages).map
        (fun m => m.id)).Pairwise (· < ·) ∧
       (((applyOps (ConvStore.empty ConvType.individual)
        [StoreOp.add false 100 ⟨Sender.user, "a", some "User", none, none⟩,
         StoreOp.add false 100 ⟨Sender.character, "b", some "Ann", none, none⟩]).messages).map
        (fun m => m.id)).Nodup) := by
  decide

theorem removeAt_length {α : Type} : ∀ (l : List α) (i : Nat), i < l.length →
    (removeAt i l).length = l.length - 1
  | [], i, h => by simp at h
  | m :: rest, 0, _ => by simp [removeAt]
  | m :: rest, i + 1, h => by
    simp only [removeAt, List.length_cons]
    rw [removeAt_length rest i (by simpa using h)]
    have h2 : i < rest.length := by simpa using h
    omega

theorem insertAt_removeAt {α : Type} : ∀ (l : List α) (i : Nat) (x : α),
    l.get? i = some x → insertAt i x (removeAt i l) = l
  | [], i, x, h => by simp at h
  | m :: rest, 0, x, h => by
    simp only [List.get?] at h
    cases h
    cases rest <;> rfl
  | m :: rest, i + 1, x, h => by
    simp only [List.get?] at h
    show m :: insertAt i x (removeAt i rest) = m :: rest
    rw [insertAt_removeAt rest i x h]

theorem removeMessage_spec (s : ConvStore) (mid i : Nat) (rm : Msg)
    (hfind : findIndex (fun m => m.id == mid) s.messages = some i)
    (hget : s.messages.get? i = some rm) :
    removeMessage mid s =
      ({ s with
          messages := removeAt i s.messages
          lastSender :=
            if (removeAt i s.messages).isEmpty then none
            else if i = (removeAt i s.messages).length then
              match (removeAt i s.messages).getLast? with
              | some lastMsg => some (keyOf lastMsg)
              | none => s.lastSender
            else s.lastSender }, some rm) := by
  unfold removeMessage
  rw [hfind]
  simp only [hget]

/-- Claim C8 (amended): removing a message and immediately restoring the
returned message at its original index restores the message list exactly,
flags included; `lastSenderIdentity` is also restored provided it equalled
the tail-derived identity rule restore uses ('user', else the characterId
when present, else 'character') before the removal.  (In an individual
conversation whose tail carries a characterId, append records 'character'
while restore re-derives the characterId, so the round trip changes
`lastSenderIdentity`; see the counterexample.) -/
theorem remove_restore_round_trip (s : ConvStore) (mid i : Nat) (rm : Msg)
    (hfind : findIndex (fun m => m.id == mid) s.messages = some i)
    (hget : s.messages.get? i = some rm)
    (hl : lastOk s) :
    (removeMessage mid s).2 = some rm ∧
    restoreMessage rm (some i) (removeMessage mid s).1 = s := by
  have hspec := removeMessage_spec s mid i rm hfind hget
  have hlt : i < s.messages.length := by
    rcases List.get?_eq_some.mp hget with ⟨h, _⟩
    exact h
  constructor
  · rw [hspec]
  · rw [hspec]
    simp only [restoreMessage]
    have hle : i ≤ (removeAt i s.messages).length := by
      rw [removeAt_length s.messages i hlt]
      omega
    rw [if_pos hle, insertAt_removeAt s.messages i rm hget]
    obtain ⟨lm, hgl⟩ : ∃ lm, s.messages.getLast? = some lm := by
      cases hmm : s.messages.getLast? with
      | some lm => exact ⟨lm, rfl⟩
      | none =>
        exfalso
        have hnil : s.messages = [] := by
          cases hc : s.messages with
          | nil => rfl
          | cons a t => rw [hc] at hmm; exact absurd hmm (by simp)
        rw [hnil] at hlt
        simp at hlt
    rw [hgl]
    have hl2 : s.lastSender = some (keyOf lm) := by rw [hl, hgl]; rfl
    show ConvStore.mk s.type s.messages (some (keyOf lm)) = s
    rw [← hl2]

theorem remove_restore_round_trip_witness :
    findIndex (fun m => m.id == 100) rtGoodStore.messages = some 0 ∧
    rtGoodStore.messages.get? 0 = some rtGoodMsg ∧
    lastOk rtGoodStore ∧
    ((removeMessage 100 rtGoodStore).2 = some rtGoodMsg ∧
      restoreMessage rtGoodMsg (some 0) (removeMessage 100 rtGoodStore).1 = rtGoodStore) :=
  ⟨by decide, by decide, by decide,
    remove_restore_round_trip rtGoodStore 100 0 rtGoodMsg (by decide) (by decide) (by decide)⟩

theorem round_trip_changes_last_sender :
    rtDemoStore.lastSender = some "character" ∧
    (removeMessage 100 rtDemoStore).2 = some rtDemoMsg ∧
    (restoreMessage rtDemoMsg (some 0) (removeMessage 100 rtDemoStore).1).messages =
      rtDemoStore.messages ∧
    (restoreMessage rtDemoMsg (some 0) (removeMessage 100 rtDemoStore).1).lastSender = some "5" ∧
    restoreMessage rtDemoMsg (some 0) (removeMessage 100 rtDemoStore).1 ≠ rtDemoStore := by
  decide

/-- Claim C3 (amended): the mention fan-out runs only under the Natural
strategy: when the strategy is Natural and more than one active participant
is mentioned, all mentioned participants respond, in active-roster order
(the mentioned list is a subsequence of the roster); under any other
strategy the configured single-responder selection runs regardless of
mentions. -/
theorem mention_fanout_natural_only (members : List Character) (g : Group) (text : String) :
    ((g.activation_strategy).getD 1 = 0 →
      1 < (getMentionedCharacters members (some g) text).length →
      generateGroupResponses members (some g) text =
        GroupPlan.fanOut (getMentionedCharacters members (some g) text)) ∧
    ((g.activation_strategy).getD 1 ≠ 0 →
      generateGroupResponses members (some g) text = GroupPlan.strategyDraw) ∧
    (getMentionedCharacters members (some g) text).Sublist members := by
  refine ⟨?_, ?_, ?_⟩
  · intro h0 hlen
    simp only [generateGroupResponses]
    rw [if_pos h0, if_pos hlen]
  · intro h0
    simp only [generateGroupResponses]
    rw [if_neg h0]
  · exact (List.filter_sublist _).trans (List.filter_sublist _)

theorem mention_fanout_natural_only_witness :
    ((mentionNaturalGroup.activation_strategy).getD 1 = 0 ∧
     1 < (getMentionedCharacters mentionMembers (some mentionNaturalGroup) "hey Bob and Cara").length ∧
     generateGroupResponses mentionMembers (some mentionNaturalGroup) "hey Bob and Cara" =
       GroupPlan.fanOut
         (getMentionedCharacters mentionMembers (some mentionNaturalGroup) "hey Bob and Cara")) ∧
    ((mentionListGroup.activation_strategy).getD 1 ≠ 0 ∧
     generateGroupResponses mentionMembers (some mentionListGroup) "hey Bob and Cara" =
       GroupPlan.strategyDraw) :=
  ⟨⟨by decide, by decide,
    (mention_fanout_natural_only mentionMembers mentionNaturalGroup "hey Bob and Cara").1
      (by decide) (by decide)⟩,
   ⟨by decide,
    (mention_fanout_natural_only mentionMembers mentionListGroup "hey Bob and Cara").2.1
      (by decide)⟩⟩

theorem mention_fanout_counterexample :
    ((mentionListGroup.activation_strategy).getD 1 ≠ 3 ∧
     1 < (getMentionedCharacters mentionMembers (some mentionListGroup) "hey Bob and Cara").length ∧
     generateGroupResponses mentionMembers (some mentionListGroup) "hey Bob and Cara" ≠
       GroupPlan.fanOut
         (getMentionedCharacters mentionMembers (some mentionListGroup) "hey Bob and Cara")) ∧
    getMentionedCharacters mentionMembers (some mentionNaturalGroup) "hey Cara and Bob" =
      [mentionBob, mentionCara] ∧
    generateGroupResponses mentionMembers (some mentionNaturalGroup) "hey Cara and Bob" =
      GroupPlan.fanOut [mentionBob, mentionCara] := by
  decide

/-- Claim C6: under the List strategy with roster [X, Y, Z] all active and
self-responses disallowed, selection is deterministic strict round-robin in
roster order: after X always Y, after Y always Z, after Z always X, whatever
the rest of the history and the random stream. -/
theorem list_strategy_round_robin (messages : List Msg) (rng : Nat → ℚ) :
    (lastCharacterId messages = some (memberId rrX) →
      getNextGroupCharacter [rrX, rrY, rrZ] (some rrGroup) messages rng = some rrY) ∧
    (lastCharacterId messages = some (memberId rrY) →
      getNextGroupCharacter [rrX, rrY, rrZ] (some rrGroup) messages rng = some rrZ) ∧
    (lastCharacterId messages = some (memberId rrZ) →
      getNextGroupCharacter [rrX, rrY, rrZ] (some rrGroup) messages rng = some rrX) := by
  refine ⟨?_, ?_, ?_⟩ <;> intro h <;>
    simp [getNextGroupCharacter, rrGroup, rrX, rrY, rrZ, memberId, h, listScanFrom]

theorem list_strategy_round_robin_witness :
    (lastCharacterId [⟨1, Sender.character, some "x.png", "hi", "X", "", 1, true, false, none, false⟩]
        = some (memberId rrX)) ∧
    getNextGroupCharacter [rrX, rrY, rrZ] (some rrGroup)
      [⟨1, Sender.character, some "x.png", "hi", "X", "", 1, true, false, none, false⟩]
      (fun _ => 0) = some rrY :=
  ⟨by decide, (list_strategy_round_robin _ (fun _ => 0)).1 (by decide)⟩

/-- Claim C9 (amended): an empty roster yields no responder and the
orchestrator treats that as a no-op, appending nothing to store or
transcript; but a roster whose participants are all disabled does not yield
"no responder" — selection falls back to the full roster and returns its
first member. -/
theorem empty_roster_no_responder (group : Option Group) (messages : List Msg)
    (rng : Nat → ℚ) (ctx : GenCtx) (s : ConvStore) (chat : List ChatEntry) :
    getNextGroupCharacter [] group messages rng = none ∧
    generateCharacterResponse true [] group ctx s chat = (s, chat, none) ∧
    (∀ (m0 : Character) (rest : List Character) (g : Group),
      (∀ m ∈ m0 :: rest, g.disabled_members.contains (memberId m) = true) →
      getNextGroupCharacter (m0 :: rest) (some g) messages rng = some m0) := by
  refine ⟨rfl, rfl, ?_⟩
  intro m0 rest g hdis
  have hact : (m0 :: rest).filter (fun m => !(g.disabled_members.contains (memberId m))) = [] := by
    rw [List.filter_eq_nil_iff]
    intro a ha
    have h2 : memberId a ∈ g.disabled_members := by simpa using hdis a ha
    simp [h2]
  simp only [getNextGroupCharacter, hact]

theorem empty_roster_no_responder_witness :
    getNextGroupCharacter [] (some disGroup) [] (fun _ => 0) = none ∧
    generateCharacterResponse true [] (some disGroup) regenCtx
      (ConvStore.empty ConvType.group) [] = (ConvStore.empty ConvType.group, [], none) ∧
    getNextGroupCharacter [disAnn] (some disGroup) [] (fun _ => 0) = some disAnn := by
  refine ⟨(empty_roster_no_responder (some disGroup) [] (fun _ => 0) regenCtx
      (ConvStore.empty ConvType.group) []).1,
    (empty_roster_no_responder (some disGroup) [] (fun _ => 0) regenCtx
      (ConvStore.empty ConvType.group) []).2.1,
    (empty_roster_no_responder (some disGroup) [] (fun _ => 0) regenCtx
      (ConvStore.empty ConvType.group) []).2.2 disAnn [] disGroup (by decide)⟩

theorem disabled_roster_still_selects :
    (∀ m ∈ [disAnn], disGroup.disabled_members.contains (memberId m) = true) ∧
    getNextGroupCharacter [disAnn] (some disGroup) [] (fun _ => 0) = some disAnn ∧
    getNextGroupCharacter [disAnn] (some disGroup) [] (fun _ => 0) ≠ none := by
  decide

/-- Claim C4 (code bug): the user-target guard holds (targeting the user
message with id 3 changes nothing and is refused), and targeting the
character message at index 3 of 5 deletes it and its successor from both the
store and the transcript, leaving exactly 3 messages — but the regeneration
step then calls `generateResponseForCharacter`, an identifier defined
nowhere in the module, so it throws a ReferenceError instead of generating
the original participant's reply: no new message is appended. -/
theorem regenerate_group_reference_error :
    regenerateFromMessage true [⟨"Ann", some "ann.png", some 50⟩] (some regenGroup) regenCtx 3
        regenStore regenChat = (regenStore, regenChat, RegenOutcome.invalidTarget) ∧
    regenerateFromMessage true [⟨"Ann", some "ann.png", some 50⟩] (some regenGroup) regenCtx 4
        regenStore regenChat =
      (⟨ConvType.group,
        [⟨1, Sender.user, none, "a", "User", "", 1, true, false, none, false⟩,
         ⟨2, Sender.character, some "0", "b", "Ann", "", 2, true, false, none, false⟩,
         ⟨3, Sender.user, none, "c", "User", "", 3, true, false, none, false⟩], some "user"⟩,
       [⟨true, some 1, true, "User", none, "📱 a", some 1, none⟩,
        ⟨true, some 2, false, "Ann", some "Ann", "📱 b", some 2, none⟩,
        ⟨true, some 3, true, "User", none, "📱 c", some 3, none⟩],
       RegenOutcome.referenceError) := by
  decide

end Phone
